import Mathlib

/-!
Verification of the per-camera recording pipeline of this repository
(`recorder_module.py`, `camera_module.py`) against its specification.

The Python code is shallowly embedded: each loop body becomes a pure state
transition function, wall-clock times and intervals become rationals (Python
floats), frames become raw byte buffers (`List Nat`), the ffmpeg subprocess
becomes a record collecting the bytes written to its stdin together with a
broken-pipe flag, and the per-recorder mutable fields of `VideoRecorder`
become a `DriverState` record.
-/

namespace Recorder

/-- A frame is a raw pixel buffer (the code passes `numpy` arrays and writes
`frame.tobytes()` to ffmpeg's stdin). -/
abbrev Frame := List Nat

/-- `queue.Queue(maxsize=150)` — the capacity of the bounded frame queue
(`recorder_module.py` line 21). -/
def Q_max : Nat := 150

/-- One iteration of `VideoRecorder.producer_loop` (`recorder_module.py`
lines 114-120) acting on the queue contents: `frame = self.camera.read()`;
if a frame was returned and `not self.frame_queue.full()`, it is appended
(`put`); otherwise the queue is left untouched and the frame is dropped.
The function is total and returns immediately in every case: the producer
never blocks. -/
def producer_step (r : Option Frame) (q : List Frame) : List Frame :=
  match r with
  | none => q
  | some f => if q.length < Q_max then q ++ [f] else q

/-- Python's `int()` conversion of a float/rational: truncation toward zero. -/
def pyInt (q : ℚ) : ℤ :=
  if 0 ≤ q then ⌊q⌋ else ⌈q⌉

/-- `int(self.camera.fps)` followed by `if fps <= 0: fps = 30`
(`recorder_module.py` lines 48-49): the frame rate passed to the ffmpeg
command line. -/
def encoderFps (camFps : ℚ) : ℤ :=
  if pyInt camFps ≤ 0 then 30 else pyInt camFps

/-- `frame_interval = 1.0 / self.camera.fps if self.camera.fps > 0 else
1.0/30.0` (`recorder_module.py` line 126). -/
def frame_interval (camFps : ℚ) : ℚ :=
  if 0 < camFps then 1 / camFps else 1 / 30

/-- `expected_frames = int(elapsed / frame_interval)` with
`elapsed = now - self.start_time` (`recorder_module.py` lines 151-152).
The Python comparison `frames_written < expected_frames` on a non-negative
counter is faithfully rendered through `Int.toNat`: a non-positive
`expected_frames` stops the catch-up loop exactly as `0` does. -/
def expected_frames (now start_time fi : ℚ) : Nat :=
  (pyInt ((now - start_time) / fi)).toNat

/-- The ffmpeg subprocess handle for one segment, as the Driver sees it:
the identity of the segment it encodes, the sequence of frames accepted on
its stdin, and whether writing raises `BrokenPipeError`/`OSError` (the
process exited). -/
structure EncProc where
  seg : Nat
  writes : List Frame
  broken : Bool
deriving DecidableEq

/-- The inner catch-up loop of `VideoRecorder.consumer_loop`
(`recorder_module.py` lines 159-170), with the iteration count passed as
structural fuel: the Python loop `while frames_written < expected_frames`
increments `frames_written` once per iteration and otherwise breaks, so it
runs at most `expected_frames - frames_written` times.  Each iteration:
if a live process exists, write `last_frame` to its stdin — on a broken
pipe, `break` out of the loop without incrementing; the increment
`frames_written += 1` happens even when no process exists. -/
def catchUpGo : Nat → Option EncProc → Frame → Nat → Nat → Option EncProc × Nat
  | 0, p, _, fw, _ => (p, fw)
  | fuel + 1, p, f, fw, expected =>
    if fw < expected then
      match p with
      | some proc =>
        if proc.broken then
          (some proc, fw)
        else
          catchUpGo fuel (some { proc with writes := proc.writes ++ [f] }) f (fw + 1) expected
      | none => catchUpGo fuel none f (fw + 1) expected
    else
      (p, fw)

/-- The catch-up loop `while frames_written < expected_frames: ...`
(`recorder_module.py` lines 159-170). -/
def catchUp (p : Option EncProc) (f : Frame) (fw expected : Nat) : Option EncProc × Nat :=
  catchUpGo (expected - fw) p f fw expected

/-- Lifecycle events of encoder subprocesses: `launch s` records a
successful `subprocess.Popen` for segment `s` inside `_start_recording`;
`closed s` records `stdin.close()` followed by `wait()` inside
`_stop_recording`. -/
inductive Ev where
  | launch (seg : Nat)
  | closed (seg : Nat)
deriving DecidableEq

/-- The mutable per-recorder state as the consumer thread sees it: the
shared bounded queue, the consumer-local `last_frame` and `frames_written`,
and the instance fields `start_time` and `process` of `VideoRecorder`.
`next_seg` numbers the output files (`_get_output_filepath` makes each one
fresh) and `log` records the subprocess lifecycle events so far. -/
structure DriverState where
  queue : List Frame
  last_frame : Option Frame
  frames_written : Nat
  start_time : ℚ
  process : Option EncProc
  next_seg : Nat
  log : List Ev
deriving DecidableEq

/-- `VideoRecorder._start_recording` (`recorder_module.py` lines 44-86):
derive a fresh output filepath, `Popen` ffmpeg — on an exception
`self.process = None` and no process exists — and set
`self.start_time = time.time()`.  `ok` is whether `Popen` succeeds, `now`
is `time.time()`. -/
def startRecording (now : ℚ) (ok : Bool) (st : DriverState) : DriverState :=
  { st with
    process := if ok then some ⟨st.next_seg, [], false⟩ else none
    log := if ok then st.log ++ [Ev.launch st.next_seg] else st.log
    next_seg := st.next_seg + 1
    start_time := now }

/-- `VideoRecorder._stop_recording` (`recorder_module.py` lines 88-94): if
a process exists, close its stdin, `wait()` for it to exit — only then
return — and set `self.process = None`. -/
def stopRecording (st : DriverState) : DriverState :=
  match st.process with
  | none => st
  | some p => { st with process := none, log := st.log ++ [Ev.closed p.seg] }

/-- Step 1 of a `consumer_loop` iteration (`recorder_module.py` lines
134-148): if the queue is non-empty, `get_nowait` one frame and record it
as `last_frame`; otherwise leave the state alone. -/
def dequeueStep (st : DriverState) : DriverState :=
  match st.queue with
  | [] => st
  | f :: rest => { st with queue := rest, last_frame := some f }

/-- Steps 2-3 of a `consumer_loop` iteration (`recorder_module.py` lines
150-170): run the catch-up loop against the given `expected_frames`,
updating `self.process`'s input stream and `frames_written`. -/
def writePhase (lf : Frame) (expected : Nat) (st : DriverState) : DriverState :=
  { st with
    process := (catchUp st.process lf st.frames_written expected).1
    frames_written := (catchUp st.process lf st.frames_written expected).2 }

/-- The split branch of `consumer_loop` (`recorder_module.py` lines
173-177): `_stop_recording()`, then `_start_recording()` (which sets
`self.start_time = now`), then `frames_written = 0`. -/
def rotate (now : ℚ) (ok : Bool) (st : DriverState) : DriverState :=
  { startRecording now ok (stopRecording st) with frames_written := 0 }

/-- One full iteration of `VideoRecorder.consumer_loop`
(`recorder_module.py` lines 133-181) at wall-clock time `now`, where `fi`
is `frame_interval`, `si` is `split_interval` and `ok` is the launch
outcome should this iteration rotate: dequeue at most one frame; if no
frame was ever received, idle; otherwise catch up to the wall-clock frame
count and rotate when `self.process` is live and
`elapsed > self.split_interval`. -/
def consumerStep (fi si now : ℚ) (ok : Bool) (st : DriverState) : DriverState :=
  match (dequeueStep st).last_frame with
  | none => dequeueStep st
  | some lf =>
    if (writePhase lf (expected_frames now (dequeueStep st).start_time fi) (dequeueStep st)).process.isSome
        ∧ now - (dequeueStep st).start_time > si then
      rotate now ok (writePhase lf (expected_frames now (dequeueStep st).start_time fi) (dequeueStep st))
    else
      writePhase lf (expected_frames now (dequeueStep st).start_time fi) (dequeueStep st)

/-- The state at the top of `consumer_loop` (`recorder_module.py` lines
122-128): `_start_recording()` has just run at time `now` with launch
outcome `ok`, `frames_written = 0` and `last_frame = None`; the queue may
already hold frames forwarded by the producer thread. -/
def initState (q : List Frame) (now : ℚ) (ok : Bool) : DriverState :=
  startRecording now ok
    { queue := q, last_frame := none, frames_written := 0, start_time := 0,
      process := none, next_seg := 0, log := [] }

/-- Scan a lifecycle log left to right carrying the number of currently
live encoder processes: the result is `none` if at some point a second
process would be launched while one is already live, or a close happens
with none live; otherwise `some` of the final live count.  Thus
`scanLog l 0 = some n` says that along `l` at most one encoder process was
ever live at a time, every close matched a preceding launch, and `n`
processes are live at the end. -/
def scanLog : List Ev → Nat → Option Nat
  | [], n => some n
  | Ev.launch _ :: rest, 0 => scanLog rest 1
  | Ev.launch _ :: _, _ + 1 => none
  | Ev.closed _ :: rest, n + 1 => scanLog rest n
  | Ev.closed _ :: _, 0 => none

/-- The number of live encoder processes a driver state holds (its
`process` field is a single optional handle). -/
def procCount (st : DriverState) : Nat :=
  if st.process.isSome then 1 else 0

/-- The driver states reachable in a run: the initial state of
`consumer_loop`, closed under consumer iterations (at arbitrary wall-clock
times and ffmpeg launch outcomes) and producer iterations (which only
touch the queue). -/
inductive Reach (fi si : ℚ) : DriverState → Prop where
  | init (q : List Frame) (now : ℚ) (ok : Bool) : Reach fi si (initState q now ok)
  | consume (now : ℚ) (ok : Bool) (st : DriverState) :
      Reach fi si st → Reach fi si (consumerStep fi si now ok st)
  | produce (r : Option Frame) (st : DriverState) :
      Reach fi si st → Reach fi si { st with queue := producer_step r st.queue }

/-- The iterations of `consumer_loop` after `stop()` set
`running = False` and the producer thread was joined: the loop condition
`while self.running or not self.frame_queue.empty()` keeps it running
while the queue is non-empty, and each iteration pops exactly one frame,
so it runs once per remaining queued frame.  `ts n` and `oks n` are the
wall-clock time and launch outcome of the n-th remaining iteration. -/
def drainRun (fi si : ℚ) (ts : Nat → ℚ) (oks : Nat → Bool) :
    Nat → DriverState → DriverState
  | 0, st => st
  | n + 1, st => drainRun fi si ts oks n (consumerStep fi si (ts n) (oks n) st)

/-- `VideoRecorder.stop()` (`recorder_module.py` lines 106-112) as the
driver experiences it: the drain loop runs to completion, then the final
`_stop_recording()` (line 183) closes the last segment; the second
`_stop_recording()` from `stop()` itself is a no-op since `self.process`
is already `None`. -/
def recorderStop (fi si : ℚ) (ts : Nat → ℚ) (oks : Nat → Bool) (st : DriverState) : DriverState :=
  stopRecording (drainRun fi si ts oks st.queue.length st)

/-- The result of the storage-directory step of `VideoRecorder.__init__`:
whether the constructor completed normally, and the error message printed
(if any). -/
structure InitResult where
  constructed : Bool
  loggedError : Option String
deriving DecidableEq

/-- The storage-directory step of `VideoRecorder.__init__`
(`recorder_module.py` lines 27-31): if the base path does not exist,
`os.makedirs` runs inside `try/except OSError`; the exception is printed
and swallowed and the constructor completes either way. -/
def recorderInitStorage (pathExists : Bool) (mkdirs : Except String Unit) : InitResult :=
  if pathExists then ⟨true, none⟩
  else
    match mkdirs with
    | Except.ok _ => ⟨true, none⟩
    | Except.error e => ⟨true, some e⟩

/-- `VideoRecorder._get_output_filepath` (`recorder_module.py` lines
33-42): `os.makedirs` on the per-camera directory is not wrapped in any
handler; an `OSError` propagates to the caller. -/
def getOutputFilepath (camDirExists : Bool) (mkdirs : Except String Unit) (path : String) :
    Except String String :=
  if camDirExists then Except.ok path
  else
    match mkdirs with
    | Except.ok _ => Except.ok path
    | Except.error e => Except.error e

/-- The camera reader's buffer heap at one moment: `bufs` is the list of
live pixel buffers (a buffer reference is an index into it) and `slot` is
the reference held by `self.latest_frame`.  `numpy`'s `.copy()` allocates
a fresh buffer with equal contents at a new reference. -/
structure CamState where
  bufs : List Frame
  slot : Option Nat
deriving DecidableEq

/-- Look up the contents of the buffer behind reference `l`. -/
def deref (s : CamState) (l : Nat) : Frame :=
  s.bufs.getD l []

/-- `BaseCameraReader.read` (`camera_module.py` lines 103-107): under the
lock, if `self.latest_frame is not None` return `self.latest_frame.copy()`
— a freshly allocated buffer holding the same pixels — else return `None`.
It never waits for a frame to arrive. -/
def cameraRead (s : CamState) : Option Nat × CamState :=
  match s.slot with
  | none => (none, s)
  | some l => (some s.bufs.length, { s with bufs := s.bufs ++ [s.bufs.getD l []] })

/-- In-place mutation of the buffer behind reference `l`: what a caller
may do to the array `read` returned. -/
def writeBuf (s : CamState) (l : Nat) (g : Frame → Frame) : CamState :=
  { s with bufs := s.bufs.set l (g (s.bufs.getD l [])) }

/-- A driver state whose ffmpeg process has exited (writes raise a broken
pipe): one segment was launched, one frame was received earlier, the queue
is empty. -/
def brokenSt : DriverState :=
  { queue := [], last_frame := some [7], frames_written := 0, start_time := 0,
    process := some ⟨0, [], true⟩, next_seg := 1, log := [Ev.launch 0] }

/-- A second broken-pipe driver state, some frames into its segment. -/
def brokenSt2 : DriverState :=
  { queue := [], last_frame := some [9], frames_written := 5, start_time := 0,
    process := some ⟨0, [], true⟩, next_seg := 1, log := [Ev.launch 0] }

/-- A driver state mid-segment with a live process and a previously
received frame, used to exhibit what a split does and does not reset. -/
def midSt : DriverState :=
  { queue := [], last_frame := some [5], frames_written := 42, start_time := 0,
    process := some ⟨3, [[1]], false⟩, next_seg := 4, log := [] }

/-- A driver state that has never received a frame: empty queue and no
`last_frame`. -/
def idleSt : DriverState :=
  { queue := [], last_frame := none, frames_written := 0, start_time := 0,
    process := some ⟨0, [], false⟩, next_seg := 1, log := [Ev.launch 0] }

/-- A healthy driver state at the start of a segment. -/
def writeSt : DriverState :=
  { queue := [], last_frame := some [1], frames_written := 0, start_time := 0,
    process := some ⟨0, [], false⟩, next_seg := 1, log := [Ev.launch 0] }

/-- A camera state holding one captured frame. -/
def camSt : CamState :=
  { bufs := [[1, 2]], slot := some 0 }

end Recorder

namespace Recorder

theorem catchUpGo_ok (k : Nat) : ∀ (s : Nat) (w : List Frame) (f : Frame) (fw : Nat),
    catchUpGo k (some ⟨s, w, false⟩) f fw (fw + k)
      = (some ⟨s, w ++ List.replicate k f, false⟩, fw + k) := by
  induction k with
  | zero => intro s w f fw; simp [catchUpGo]
  | succ k ih =>
    intro s w f fw
    have hlt : fw < fw + (k + 1) := by omega
    simp only [catchUpGo, if_pos hlt, Bool.false_eq_true, if_false]
    have harith : fw + (k + 1) = (fw + 1) + k := by omega
    rw [harith, ih s (w ++ [f]) f (fw + 1)]
    simp [List.replicate_succ, List.append_assoc]

theorem catchUp_ok (proc : EncProc) (f : Frame) (fw expected : Nat)
    (hb : proc.broken = false) (hle : fw ≤ expected) :
    catchUp (some proc) f fw expected
      = (some { proc with writes := proc.writes ++ List.replicate (expected - fw) f },
         expected) := by
  obtain ⟨s, w, b⟩ := proc
  have hb' : b = false := hb
  subst hb'
  obtain ⟨k, rfl⟩ : ∃ k, expected = fw + k := ⟨expected - fw, by omega⟩
  unfold catchUp
  rw [Nat.add_sub_cancel_left, catchUpGo_ok k s w f fw]

theorem catchUp_broken (proc : EncProc) (f : Frame) (fw expected : Nat)
    (hb : proc.broken = true) :
    catchUp (some proc) f fw expected = (some proc, fw) := by
  obtain ⟨s, w, b⟩ := proc
  have hb' : b = true := hb
  subst hb'
  unfold catchUp
  cases hE : expected - fw with
  | zero => simp [catchUpGo]
  | succ k =>
    have hlt : fw < expected := by omega
    simp [catchUpGo, if_pos hlt]

theorem catchUpGo_fst_isSome (k : Nat) : ∀ (p : Option EncProc) (f : Frame) (fw expected : Nat),
    (catchUpGo k p f fw expected).1.isSome = p.isSome := by
  induction k with
  | zero => intro p f fw expected; simp [catchUpGo]
  | succ k ih =>
    intro p f fw expected
    by_cases hlt : fw < expected
    · cases p with
      | none =>
        simp only [catchUpGo, if_pos hlt]
        exact ih none f (fw + 1) expected
      | some proc =>
        obtain ⟨s, w, b⟩ := proc
        cases b with
        | true => simp [catchUpGo, if_pos hlt]
        | false =>
          simp only [catchUpGo, if_pos hlt, Bool.false_eq_true, if_false]
          exact ih (some ⟨s, w ++ [f], false⟩) f (fw + 1) expected
    · cases p <;> simp [catchUpGo, hlt]

theorem catchUp_fst_isSome (p : Option EncProc) (f : Frame) (fw expected : Nat) :
    (catchUp p f fw expected).1.isSome = p.isSome :=
  catchUpGo_fst_isSome _ p f fw expected

theorem catchUpGo_none (k : Nat) : ∀ (f : Frame) (fw : Nat),
    catchUpGo k none f fw (fw + k) = (none, fw + k) := by
  induction k with
  | zero => intro f fw; simp [catchUpGo]
  | succ k ih =>
    intro f fw
    have hlt : fw < fw + (k + 1) := by omega
    simp only [catchUpGo, if_pos hlt]
    have harith : fw + (k + 1) = (fw + 1) + k := by omega
    rw [harith, ih f (fw + 1)]

/-- With no live process (`self.process` is `None`, after a failed ffmpeg
launch) the catch-up loop writes nothing but still advances the counter to
`expected_frames`. -/
theorem catchUp_none (f : Frame) (fw expected : Nat) (hle : fw ≤ expected) :
    catchUp none f fw expected = (none, expected) := by
  obtain ⟨k, rfl⟩ : ∃ k, expected = fw + k := ⟨expected - fw, by omega⟩
  unfold catchUp
  rw [Nat.add_sub_cancel_left, catchUpGo_none k f fw]

/-- C2: the frame queue is bounded by `Q_max = 150`; a producer iteration
that finds the queue full leaves it exactly unchanged — same size, same
frames in the same order, and the incoming frame is dropped.  The step is
a total function of the pre-state, returning in every case: the Relay
never blocks on a full queue. -/
theorem producer_bounded_drop_on_full (r : Option Frame) (q : List Frame)
    (hq : q.length ≤ Q_max) :
    (producer_step r q).length ≤ Q_max ∧
    (q.length = Q_max → producer_step r q = q) := by
  constructor
  · cases r with
    | none => exact hq
    | some f =>
      show (if q.length < Q_max then q ++ [f] else q).length ≤ Q_max
      by_cases h : q.length < Q_max
      · rw [if_pos h]
        simp only [List.length_append, List.length_singleton]
        omega
      · rw [if_neg h]
        exact hq
  · intro hfull
    cases r with
    | none => rfl
    | some f =>
      show (if q.length < Q_max then q ++ [f] else q) = q
      rw [if_neg (by omega)]

/-- Witness for C2: a queue holding exactly `Q_max` frames stays unchanged
when one more frame arrives. -/
theorem producer_bounded_drop_on_full_witness :
    (producer_step (some [1]) (List.replicate Q_max [0])).length ≤ Q_max ∧
    ((List.replicate Q_max ([0] : Frame)).length = Q_max →
      producer_step (some [1]) (List.replicate Q_max [0]) = List.replicate Q_max [0]) :=
  producer_bounded_drop_on_full (some [1]) (List.replicate Q_max [0]) (by simp)

theorem dequeueStep_log (st : DriverState) : (dequeueStep st).log = st.log := by
  obtain ⟨q, lf, fw, ti, pr, ns, lg⟩ := st
  cases q <;> rfl

theorem dequeueStep_process (st : DriverState) : (dequeueStep st).process = st.process := by
  obtain ⟨q, lf, fw, ti, pr, ns, lg⟩ := st
  cases q <;> rfl

theorem dequeueStep_frames_written (st : DriverState) :
    (dequeueStep st).frames_written = st.frames_written := by
  obtain ⟨q, lf, fw, ti, pr, ns, lg⟩ := st
  cases q <;> rfl

theorem dequeueStep_start_time (st : DriverState) :
    (dequeueStep st).start_time = st.start_time := by
  obtain ⟨q, lf, fw, ti, pr, ns, lg⟩ := st
  cases q <;> rfl

theorem dequeueStep_next_seg (st : DriverState) :
    (dequeueStep st).next_seg = st.next_seg := by
  obtain ⟨q, lf, fw, ti, pr, ns, lg⟩ := st
  cases q <;> rfl

theorem dequeueStep_queue (st : DriverState) : (dequeueStep st).queue = st.queue.tail := by
  obtain ⟨q, lf, fw, ti, pr, ns, lg⟩ := st
  cases q <;> rfl

theorem writePhase_log (lf : Frame) (e : Nat) (st : DriverState) :
    (writePhase lf e st).log = st.log := rfl

theorem writePhase_queue (lf : Frame) (e : Nat) (st : DriverState) :
    (writePhase lf e st).queue = st.queue := rfl

theorem writePhase_start_time (lf : Frame) (e : Nat) (st : DriverState) :
    (writePhase lf e st).start_time = st.start_time := rfl

theorem writePhase_isSome (lf : Frame) (e : Nat) (st : DriverState) :
    (writePhase lf e st).process.isSome = st.process.isSome :=
  catchUp_fst_isSome st.process lf st.frames_written e

theorem stopRecording_process (st : DriverState) : (stopRecording st).process = none := by
  obtain ⟨q, lf, fw, ti, pr, ns, lg⟩ := st
  cases pr <;> rfl

theorem stopRecording_queue (st : DriverState) : (stopRecording st).queue = st.queue := by
  obtain ⟨q, lf, fw, ti, pr, ns, lg⟩ := st
  cases pr <;> rfl

theorem stopRecording_last_frame (st : DriverState) :
    (stopRecording st).last_frame = st.last_frame := by
  obtain ⟨q, lf, fw, ti, pr, ns, lg⟩ := st
  cases pr <;> rfl

theorem stopRecording_next_seg (st : DriverState) :
    (stopRecording st).next_seg = st.next_seg := by
  obtain ⟨q, lf, fw, ti, pr, ns, lg⟩ := st
  cases pr <;> rfl

theorem rotate_queue (now : ℚ) (ok : Bool) (st : DriverState) :
    (rotate now ok st).queue = st.queue := by
  unfold rotate startRecording
  rw [stopRecording_queue st]

/-- Unfolding equation for a `consumer_loop` iteration with no frame ever
received. -/
theorem consumerStep_eq_none (fi si now : ℚ) (ok : Bool) (st : DriverState)
    (h : (dequeueStep st).last_frame = none) :
    consumerStep fi si now ok st = dequeueStep st := by
  unfold consumerStep
  rw [h]

/-- Unfolding equation for a `consumer_loop` iteration with a received
frame in hand. -/
theorem consumerStep_eq_some (fi si now : ℚ) (ok : Bool) (st : DriverState) (lf : Frame)
    (h : (dequeueStep st).last_frame = some lf) :
    consumerStep fi si now ok st =
      if (writePhase lf (expected_frames now (dequeueStep st).start_time fi)
            (dequeueStep st)).process.isSome
          ∧ now - (dequeueStep st).start_time > si then
        rotate now ok
          (writePhase lf (expected_frames now (dequeueStep st).start_time fi) (dequeueStep st))
      else
        writePhase lf (expected_frames now (dequeueStep st).start_time fi) (dequeueStep st) := by
  unfold consumerStep
  rw [h]

/-- Each `consumer_loop` iteration removes exactly the head of the queue
(when there is one): neither the write phase nor a split touches the
queue. -/
theorem consumerStep_queue (fi si now : ℚ) (ok : Bool) (st : DriverState) :
    (consumerStep fi si now ok st).queue = st.queue.tail := by
  cases h : (dequeueStep st).last_frame with
  | none => rw [consumerStep_eq_none fi si now ok st h, dequeueStep_queue]
  | some lf =>
    rw [consumerStep_eq_some fi si now ok st lf h]
    by_cases hc :
        (writePhase lf (expected_frames now (dequeueStep st).start_time fi)
            (dequeueStep st)).process.isSome
          ∧ now - (dequeueStep st).start_time > si
    · rw [if_pos hc, rotate_queue, writePhase_queue, dequeueStep_queue]
    · rw [if_neg hc, writePhase_queue, dequeueStep_queue]

theorem tail_drop (l : List Frame) (n : Nat) : l.tail.drop n = l.drop (n + 1) := by
  cases l <;> simp

theorem drainRun_queue (fi si : ℚ) (ts : Nat → ℚ) (oks : Nat → Bool) :
    ∀ (n : Nat) (st : DriverState),
      (drainRun fi si ts oks n st).queue = st.queue.drop n := by
  intro n
  induction n with
  | zero => intro st; rfl
  | succ n ih =>
    intro st
    show (drainRun fi si ts oks n (consumerStep fi si (ts n) (oks n) st)).queue
        = st.queue.drop (n + 1)
    rw [ih, consumerStep_queue, tail_drop]

/-- C5: after `stop()` returns, the queue has been fully drained and the
final segment's encoder process has exited.  The shutdown order is the one
the code fixes: `running = False` stops the producer from enqueuing, the
consumer keeps dequeuing (one frame per iteration, writing at cadence)
until the queue is empty, and only then does `_stop_recording` close the
encoder's stdin and block in `wait()` — the process is never killed. -/
theorem stop_drains (fi si : ℚ) (ts : Nat → ℚ) (oks : Nat → Bool) (st : DriverState) :
    (recorderStop fi si ts oks st).queue = [] ∧
    (recorderStop fi si ts oks st).process = none := by
  constructor
  · unfold recorderStop
    rw [stopRecording_queue, drainRun_queue, List.drop_length]
  · exact stopRecording_process _

/-- C8 counterexample: a split fired at `now = 7` on a mid-segment state
whose last received frame is `[5]`.  A fresh segment opens, the frame
counter and start time are reset, but `last_frame` is NOT reset: it still
holds `[5]` rather than being cleared to `none` (its value when the
consumer loop starts).  The claim that all three cadence fields are reset
on every rotation is therefore false. -/
theorem rotation_reset_counterexample :
    (rotate 7 true midSt).last_frame = some [5] ∧
    (rotate 7 true midSt).last_frame ≠ none ∧
    (rotate 7 true midSt).frames_written = 0 ∧
    (rotate 7 true midSt).start_time = 7 := by
  refine ⟨rfl, ?_, rfl, rfl⟩
  intro h
  simp [rotate, startRecording, stopRecording, midSt] at h

theorem writePhase_last_frame (lf : Frame) (e : Nat) (st : DriverState) :
    (writePhase lf e st).last_frame = st.last_frame := rfl

theorem writePhase_next_seg (lf : Frame) (e : Nat) (st : DriverState) :
    (writePhase lf e st).next_seg = st.next_seg := rfl

theorem writePhase_frames_written (lf : Frame) (e : Nat) (st : DriverState) :
    (writePhase lf e st).frames_written
      = (catchUp st.process lf st.frames_written e).2 := rfl

theorem rotate_last_frame (now : ℚ) (ok : Bool) (st : DriverState) :
    (rotate now ok st).last_frame = st.last_frame := by
  show (stopRecording st).last_frame = st.last_frame
  exact stopRecording_last_frame st

theorem rotate_next_seg (now : ℚ) (ok : Bool) (st : DriverState) :
    (rotate now ok st).next_seg = st.next_seg + 1 := by
  show (stopRecording st).next_seg + 1 = st.next_seg + 1
  rw [stopRecording_next_seg]

/-- The catch-up loop never decreases `frames_written`: each iteration
either increments it or breaks out. -/
theorem catchUpGo_snd_ge (k : Nat) : ∀ (p : Option EncProc) (f : Frame) (fw expected : Nat),
    fw ≤ (catchUpGo k p f fw expected).2 := by
  induction k with
  | zero => intro p f fw expected; exact Nat.le_refl fw
  | succ k ih =>
    intro p f fw expected
    by_cases hlt : fw < expected
    · cases p with
      | none =>
        simp only [catchUpGo, if_pos hlt]
        exact Nat.le_trans (Nat.le_succ fw) (ih none f (fw + 1) expected)
      | some proc =>
        obtain ⟨s, w, b⟩ := proc
        cases b with
        | true => simp [catchUpGo, if_pos hlt]
        | false =>
          simp only [catchUpGo, if_pos hlt, Bool.false_eq_true, if_false]
          exact Nat.le_trans (Nat.le_succ fw) (ih (some ⟨s, w ++ [f], false⟩) f (fw + 1) expected)
    · cases p <;> simp [catchUpGo, hlt]

theorem catchUp_snd_ge (p : Option EncProc) (f : Frame) (fw expected : Nat) :
    fw ≤ (catchUp p f fw expected).2 :=
  catchUpGo_snd_ge _ p f fw expected

/-- A `consumer_loop` iteration leaves `last_frame` exactly as the dequeue
left it: neither the write phase nor a split touches it. -/
theorem consumerStep_last_frame (fi si now : ℚ) (ok : Bool) (st : DriverState) :
    (consumerStep fi si now ok st).last_frame = (dequeueStep st).last_frame := by
  cases hq : (dequeueStep st).last_frame with
  | none => rw [consumerStep_eq_none fi si now ok st hq, hq]
  | some lf =>
    rw [consumerStep_eq_some fi si now ok st lf hq]
    by_cases hc :
        (writePhase lf (expected_frames now (dequeueStep st).start_time fi)
            (dequeueStep st)).process.isSome
          ∧ now - (dequeueStep st).start_time > si
    · rw [if_pos hc, rotate_last_frame, writePhase_last_frame]
      exact hq
    · rw [if_neg hc, writePhase_last_frame]
      exact hq

theorem dequeueStep_last_frame_eq_none (st : DriverState)
    (h : (dequeueStep st).last_frame = none) : st.last_frame = none ∧ st.queue = [] := by
  obtain ⟨q, lf, fw, ti, pr, ns, lg⟩ := st
  cases q with
  | nil => exact ⟨h, rfl⟩
  | cons f rest => simp [dequeueStep] at h

/-- C8 amended: the cadence fields are reset exactly when a new segment
opens, and at no other step.  A split resets precisely the segment start
time (to the current wall-clock time) and the frames-written counter (to
zero) while `last_frame` deliberately survives it; every consumer
iteration either opens no segment (`next_seg` unchanged) and then leaves
`start_time` untouched and never decreases `frames_written`, or runs the
split branch (`next_seg` advances by one) and then resets both; a
producer iteration touches only the queue; and `last_frame` can be absent
after an iteration only if no frame was ever received (it is `none` at
the initial segment open and never reverts to `none` once set). -/
theorem rotation_reset_amended (fi si now : ℚ) (ok : Bool) (st : DriverState)
    (q : List Frame) (r : Option Frame) :
    ((rotate now ok st).frames_written = 0 ∧
      (rotate now ok st).start_time = now ∧
      (rotate now ok st).last_frame = st.last_frame) ∧
    ((initState q now ok).last_frame = none ∧
      (initState q now ok).frames_written = 0) ∧
    (((consumerStep fi si now ok st).next_seg = st.next_seg ∧
        (consumerStep fi si now ok st).start_time = st.start_time ∧
        st.frames_written ≤ (consumerStep fi si now ok st).frames_written)
      ∨ ((consumerStep fi si now ok st).next_seg = st.next_seg + 1 ∧
        (consumerStep fi si now ok st).start_time = now ∧
        (consumerStep fi si now ok st).frames_written = 0)) ∧
    ((consumerStep fi si now ok st).last_frame = none →
      st.last_frame = none ∧ st.queue = []) ∧
    ({ st with queue := producer_step r st.queue }.last_frame = st.last_frame ∧
      { st with queue := producer_step r st.queue }.frames_written = st.frames_written ∧
      { st with queue := producer_step r st.queue }.start_time = st.start_time ∧
      { st with queue := producer_step r st.queue }.next_seg = st.next_seg) := by
  refine ⟨⟨rfl, rfl, rotate_last_frame now ok st⟩, ⟨rfl, rfl⟩, ?_, ?_, rfl, rfl, rfl, rfl⟩
  · cases hq : (dequeueStep st).last_frame with
    | none =>
      rw [consumerStep_eq_none fi si now ok st hq]
      exact Or.inl ⟨dequeueStep_next_seg st, dequeueStep_start_time st,
        Nat.le_of_eq (dequeueStep_frames_written st).symm⟩
    | some lf =>
      rw [consumerStep_eq_some fi si now ok st lf hq]
      by_cases hc :
          (writePhase lf (expected_frames now (dequeueStep st).start_time fi)
              (dequeueStep st)).process.isSome
            ∧ now - (dequeueStep st).start_time > si
      · rw [if_pos hc]
        refine Or.inr ⟨?_, rfl, rfl⟩
        rw [rotate_next_seg, writePhase_next_seg, dequeueStep_next_seg]
      · rw [if_neg hc]
        refine Or.inl ⟨?_, ?_, ?_⟩
        · rw [writePhase_next_seg, dequeueStep_next_seg]
        · rw [writePhase_start_time, dequeueStep_start_time]
        · rw [writePhase_frames_written]
          calc st.frames_written
              = (dequeueStep st).frames_written := (dequeueStep_frames_written st).symm
            _ ≤ ((catchUp (dequeueStep st).process lf (dequeueStep st).frames_written
                  (expected_frames now (dequeueStep st).start_time fi)).2) :=
                catchUp_snd_ge _ lf _ _
  · intro h
    rw [consumerStep_last_frame] at h
    exact dequeueStep_last_frame_eq_none st h

/-- Witness for the amended C8 theorem: at a state that never received a
frame, an iteration's `last_frame` being absent indeed certifies the
never-received state. -/
theorem rotation_reset_amended_witness :
    idleSt.last_frame = none ∧ idleSt.queue = [] :=
  (rotation_reset_amended (1/30) 300 1 true idleSt [] (some [3])).2.2.2.1 rfl

theorem catchUpGo_none_fst (k : Nat) : ∀ (f : Frame) (fw expected : Nat),
    (catchUpGo k none f fw expected).1 = none := by
  induction k with
  | zero => intro f fw expected; rfl
  | succ k ih =>
    intro f fw expected
    by_cases hlt : fw < expected
    · simp only [catchUpGo, if_pos hlt]
      exact ih f (fw + 1) expected
    · simp [catchUpGo, hlt]

theorem catchUp_none_fst (f : Frame) (fw expected : Nat) :
    (catchUp none f fw expected).1 = none :=
  catchUpGo_none_fst _ f fw expected

/-- A `consumer_loop` iteration whose process has a broken pipe and whose
elapsed time is within the split interval changes nothing but the queue
and `last_frame`: the failed write only breaks the inner loop. -/
theorem broken_pipe_step (fi si now : ℚ) (ok : Bool) (st : DriverState) (p : EncProc)
    (hp : st.process = some p) (hb : p.broken = true)
    (hs : ¬ now - st.start_time > si) :
    (consumerStep fi si now ok st).process = some p ∧
    (consumerStep fi si now ok st).log = st.log ∧
    (consumerStep fi si now ok st).frames_written = st.frames_written ∧
    (consumerStep fi si now ok st).start_time = st.start_time := by
  cases hq : (dequeueStep st).last_frame with
  | none =>
    rw [consumerStep_eq_none fi si now ok st hq]
    exact ⟨by rw [dequeueStep_process, hp], dequeueStep_log st,
      dequeueStep_frames_written st, dequeueStep_start_time st⟩
  | some lf =>
    rw [consumerStep_eq_some fi si now ok st lf hq]
    have hcu : catchUp ((dequeueStep st).process) lf (dequeueStep st).frames_written
        (expected_frames now (dequeueStep st).start_time fi)
          = (some p, (dequeueStep st).frames_written) := by
      rw [dequeueStep_process, hp]
      exact catchUp_broken p lf (dequeueStep st).frames_written
        (expected_frames now (dequeueStep st).start_time fi) hb
    have hWp : (writePhase lf (expected_frames now (dequeueStep st).start_time fi)
        (dequeueStep st)).process = some p := by
      unfold writePhase
      rw [hcu]
    have hWf : (writePhase lf (expected_frames now (dequeueStep st).start_time fi)
        (dequeueStep st)).frames_written = st.frames_written := by
      unfold writePhase
      rw [hcu]
      exact dequeueStep_frames_written st
    have hcond : ¬ ((writePhase lf (expected_frames now (dequeueStep st).start_time fi)
        (dequeueStep st)).process.isSome ∧ now - (dequeueStep st).start_time > si) := by
      rintro ⟨_, h2⟩
      rw [dequeueStep_start_time] at h2
      exact hs h2
    rw [if_neg hcond]
    refine ⟨hWp, ?_, hWf, ?_⟩
    · rw [writePhase_log, dequeueStep_log]
    · rw [writePhase_start_time, dequeueStep_start_time]

/-- C4 counterexample: at `now = 1` (well inside the split interval) the
driver meets a broken encoder pipe on state `brokenSt`.  The code's
response to the failed write is only to break the inner loop: afterwards
the lifecycle log is unchanged — the failed segment was neither closed nor
replaced, and no fresh segment was opened — and the very same dead process
handle is still installed, contradicting the claim that the driver closes
the failed segment and opens a fresh one in response to the error. -/
theorem write_failure_counterexample :
    (consumerStep (1/30) 300 1 true brokenSt).log = [Ev.launch 0] ∧
    (consumerStep (1/30) 300 1 true brokenSt).process = some ⟨0, [], true⟩ := by
  have h := broken_pipe_step (1/30) 300 1 true brokenSt ⟨0, [], true⟩ rfl rfl
    (by norm_num [brokenSt])
  exact ⟨by rw [h.2.1]; rfl, h.1⟩

/-- C4 amended: what the code actually does.  On a broken-pipe write
failure the driver abandons the catch-up loop (the counter does not even
advance) and the iteration otherwise proceeds — the recorder thread does
not terminate — but the failed segment is neither closed nor replaced at
that point: within the split interval the process handle and the
lifecycle log are untouched, and a fresh segment only arrives when the
timed split next fires.  After a failed ffmpeg launch (`self.process` is
`None`) the split branch, which requires a live process, never runs: no
segment is ever opened by the loop itself. -/
theorem write_failure_recovery_amended (fi si now : ℚ) (ok : Bool) (st : DriverState)
    (p : EncProc) :
    (st.process = some p → p.broken = true → ¬ now - st.start_time > si →
      (consumerStep fi si now ok st).process = some p ∧
      (consumerStep fi si now ok st).log = st.log ∧
      (consumerStep fi si now ok st).frames_written = st.frames_written) ∧
    (st.process = none →
      (consumerStep fi si now ok st).process = none ∧
      (consumerStep fi si now ok st).log = st.log) := by
  constructor
  · intro hp hb hs
    have h := broken_pipe_step fi si now ok st p hp hb hs
    exact ⟨h.1, h.2.1, h.2.2.1⟩
  · intro hp
    cases hq : (dequeueStep st).last_frame with
    | none =>
      rw [consumerStep_eq_none fi si now ok st hq]
      exact ⟨by rw [dequeueStep_process, hp], dequeueStep_log st⟩
    | some lf =>
      rw [consumerStep_eq_some fi si now ok st lf hq]
      have hWp : (writePhase lf (expected_frames now (dequeueStep st).start_time fi)
          (dequeueStep st)).process = none := by
        unfold writePhase
        have : catchUp ((dequeueStep st).process) lf (dequeueStep st).frames_written
            (expected_frames now (dequeueStep st).start_time fi) =
            catchUp none lf (dequeueStep st).frames_written
              (expected_frames now (dequeueStep st).start_time fi) := by
          rw [dequeueStep_process, hp]
        rw [this]
        exact catchUp_none_fst lf (dequeueStep st).frames_written _
      have hcond : ¬ ((writePhase lf (expected_frames now (dequeueStep st).start_time fi)
          (dequeueStep st)).process.isSome ∧ now - (dequeueStep st).start_time > si) := by
        rintro ⟨h1, _⟩
        rw [hWp] at h1
        simp at h1
      rw [if_neg hcond]
      exact ⟨hWp, by rw [writePhase_log, dequeueStep_log]⟩

/-- Witness for the amended C4 theorem at a concrete broken-pipe state. -/
theorem write_failure_recovery_amended_witness :
    (consumerStep (1/30) 300 2 true brokenSt2).process = some ⟨0, [], true⟩ ∧
    (consumerStep (1/30) 300 2 true brokenSt2).log = brokenSt2.log ∧
    (consumerStep (1/30) 300 2 true brokenSt2).frames_written = brokenSt2.frames_written :=
  (write_failure_recovery_amended (1/30) 300 2 true brokenSt2 ⟨0, [], true⟩).1 rfl rfl
    (by norm_num [brokenSt2])

theorem pyInt_floor_of_nonneg (q : ℚ) (h : 0 ≤ q) : pyInt q = ⌊q⌋ := by
  unfold pyInt
  rw [if_pos h]

theorem pyInt_nonpos (q : ℚ) (h : q < 1) : pyInt q ≤ 0 := by
  unfold pyInt
  by_cases h0 : 0 ≤ q
  · rw [if_pos h0]
    have hfl : ⌊q⌋ < 1 := Int.floor_lt.mpr (by exact_mod_cast h)
    omega
  · rw [if_neg h0]
    exact Int.ceil_le.mpr (by push_cast; linarith)

/-- C1: in an iteration with an open segment (live, unbroken process whose
accepted-frame count matches `frames_written`), the catch-up step brings
the number of frames written to the encoder, and the counter, to exactly
`expected_frames`, which equals `floor((now - start_time)/frame_interval)`.
The slack hypothesis `frames_written ≤ expected_frames` is what one
iteration's scheduling leaves: `expected_frames` is non-decreasing in
`now` within a segment and the counter was matched to its previous
value. -/
theorem cadence_invariant (st : DriverState) (proc : EncProc) (lf : Frame) (now fi : ℚ)
    (hp : st.process = some proc) (hopen : proc.broken = false)
    (hcount : proc.writes.length = st.frames_written)
    (hstart : st.start_time ≤ now) (hfi : 0 < fi)
    (hslack : st.frames_written ≤ expected_frames now st.start_time fi) :
    ((writePhase lf (expected_frames now st.start_time fi) st).process.map
        (fun p => p.writes.length)) = some (expected_frames now st.start_time fi) ∧
    (writePhase lf (expected_frames now st.start_time fi) st).frames_written
      = expected_frames now st.start_time fi ∧
    ((expected_frames now st.start_time fi : ℤ) = ⌊(now - st.start_time) / fi⌋) := by
  have hE := catchUp_ok proc lf st.frames_written (expected_frames now st.start_time fi)
    hopen hslack
  have hWp : (writePhase lf (expected_frames now st.start_time fi) st).process
      = some { proc with writes := proc.writes
          ++ List.replicate (expected_frames now st.start_time fi - st.frames_written) lf } := by
    unfold writePhase
    rw [hp, hE]
  have hWf : (writePhase lf (expected_frames now st.start_time fi) st).frames_written
      = expected_frames now st.start_time fi := by
    unfold writePhase
    rw [hp, hE]
  refine ⟨?_, hWf, ?_⟩
  · rw [hWp]
    simp only [Option.map_some', List.length_append, List.length_replicate]
    rw [hcount]
    congr 1
    omega
  · have hq : (0:ℚ) ≤ (now - st.start_time) / fi :=
      div_nonneg (by linarith) (le_of_lt hfi)
    unfold expected_frames
    rw [pyInt_floor_of_nonneg _ hq]
    exact Int.toNat_of_nonneg (Int.floor_nonneg.mpr hq)

/-- Witness for C1 at a fresh segment: start 0, now 1, interval 1/2. -/
theorem cadence_invariant_witness :
    ((writePhase [1] (expected_frames 1 writeSt.start_time (1/2)) writeSt).process.map
        (fun p => p.writes.length)) = some (expected_frames 1 writeSt.start_time (1/2)) ∧
    (writePhase [1] (expected_frames 1 writeSt.start_time (1/2)) writeSt).frames_written
      = expected_frames 1 writeSt.start_time (1/2) ∧
    ((expected_frames 1 writeSt.start_time (1/2) : ℤ) = ⌊((1:ℚ) - writeSt.start_time) / (1/2)⌋) :=
  cadence_invariant writeSt ⟨0, [], false⟩ [1] 1 (1/2) rfl rfl rfl
    (by norm_num [writeSt]) (by norm_num) (Nat.zero_le _)

/-- C3: a stall of `k` cadence intervals (the expected count exceeds the
written count by exactly `k`, with no new frame arriving) makes the
catch-up loop append exactly `k` copies of the last received frame to the
encoder's input — no more, no fewer — leaving all previously written
frames in place and in order: only duplication, never reordering. -/
theorem duplication_bound (proc : EncProc) (lf : Frame) (fw k : Nat)
    (hopen : proc.broken = false) :
    (catchUp (some proc) lf fw (fw + k)).1
      = some { proc with writes := proc.writes ++ List.replicate k lf } ∧
    (catchUp (some proc) lf fw (fw + k)).2 = fw + k := by
  have h := catchUp_ok proc lf fw (fw + k) hopen (by omega)
  rw [Nat.add_sub_cancel_left] at h
  exact ⟨by rw [h], by rw [h]⟩

/-- Witness for C3: a 3-interval stall duplicates the last frame 3
times. -/
theorem duplication_bound_witness :
    (catchUp (some ⟨0, [[1]], false⟩) [2] 1 (1 + 3)).1
      = some ⟨0, [[1]] ++ List.replicate 3 [2], false⟩ ∧
    (catchUp (some ⟨0, [[1]], false⟩) [2] 1 (1 + 3)).2 = 1 + 3 :=
  duplication_bound ⟨0, [[1]], false⟩ [2] 1 3 rfl

theorem scanLog_append (l₁ : List Ev) : ∀ (l₂ : List Ev) (n : Nat),
    scanLog (l₁ ++ l₂) n = (scanLog l₁ n).bind (scanLog l₂) := by
  induction l₁ with
  | nil => intro l₂ n; rfl
  | cons e t ih =>
    intro l₂ n
    cases e with
    | launch s =>
      cases n with
      | zero => exact ih l₂ 1
      | succ m => rfl
    | closed s =>
      cases n with
      | zero => rfl
      | succ m => exact ih l₂ m

theorem inv_startRecording (now : ℚ) (ok : Bool) (st : DriverState)
    (h : scanLog st.log 0 = some 0) :
    scanLog (startRecording now ok st).log 0 = some (procCount (startRecording now ok st)) := by
  cases ok with
  | true =>
    have hlog : (startRecording now true st).log = st.log ++ [Ev.launch st.next_seg] := rfl
    have hproc : (startRecording now true st).process = some ⟨st.next_seg, [], false⟩ := rfl
    rw [hlog, scanLog_append, h]
    unfold procCount
    rw [hproc]
    rfl
  | false =>
    have hlog : (startRecording now false st).log = st.log := rfl
    have hproc : (startRecording now false st).process = none := rfl
    rw [hlog, h]
    unfold procCount
    rw [hproc]
    rfl

theorem inv_stopRecording (st : DriverState) (p : EncProc) (hp : st.process = some p)
    (h : scanLog st.log 0 = some 1) :
    scanLog (stopRecording st).log 0 = some 0 ∧ (stopRecording st).process = none := by
  refine ⟨?_, stopRecording_process st⟩
  have hlog : (stopRecording st).log = st.log ++ [Ev.closed p.seg] := by
    unfold stopRecording
    rw [hp]
  rw [hlog, scanLog_append, h]
  rfl

theorem inv_consumerStep (fi si now : ℚ) (ok : Bool) (st : DriverState)
    (h : scanLog st.log 0 = some (procCount st)) :
    scanLog (consumerStep fi si now ok st).log 0
      = some (procCount (consumerStep fi si now ok st)) := by
  cases hq : (dequeueStep st).last_frame with
  | none =>
    rw [consumerStep_eq_none fi si now ok st hq, dequeueStep_log]
    have hd : procCount (dequeueStep st) = procCount st := by
      unfold procCount
      rw [dequeueStep_process]
    rw [hd]
    exact h
  | some lf =>
    rw [consumerStep_eq_some fi si now ok st lf hq]
    set W := writePhase lf (expected_frames now (dequeueStep st).start_time fi) (dequeueStep st)
      with hWdef
    have hWlog : W.log = st.log := by
      rw [hWdef, writePhase_log, dequeueStep_log]
    have hWcount : procCount W = procCount st := by
      unfold procCount
      rw [hWdef, writePhase_isSome, dequeueStep_process]
    have hWinv : scanLog W.log 0 = some (procCount W) := by
      rw [hWlog, hWcount]
      exact h
    by_cases hc : W.process.isSome ∧ now - (dequeueStep st).start_time > si
    · rw [if_pos hc]
      obtain ⟨p, hp⟩ : ∃ p, W.process = some p := Option.isSome_iff_exists.mp hc.1
      have h1 : scanLog W.log 0 = some 1 := by
        rw [hWinv]
        congr 1
        unfold procCount
        rw [hp]
        rfl
      have h2 := inv_stopRecording W p hp h1
      have h3 := inv_startRecording now ok (stopRecording W) h2.1
      have hrl : (rotate now ok W).log = (startRecording now ok (stopRecording W)).log := rfl
      have hrp : (rotate now ok W).process
          = (startRecording now ok (stopRecording W)).process := rfl
      rw [hrl]
      unfold procCount
      rw [hrp]
      unfold procCount at h3
      exact h3
    · rw [if_neg hc]
      exact hWinv

/-- C6: along every reachable run, at most one encoder process per
recorder is ever live at a time, every close matches the preceding launch
(`scanLog` succeeds on the lifecycle log), and the live count is exactly
the current `process` handle count.  Moreover a split appends the closing
of the old segment — stdin closed, process awaited — strictly before the
launch of the next segment. -/
theorem single_open_segment (fi si : ℚ) (st : DriverState) (h : Reach fi si st) :
    scanLog st.log 0 = some (procCount st) ∧
    ∀ (st' : DriverState) (p : EncProc) (now : ℚ), st'.process = some p →
      (rotate now true st').log = st'.log ++ [Ev.closed p.seg, Ev.launch st'.next_seg] := by
  constructor
  · induction h with
    | init q now ok => exact inv_startRecording now ok _ rfl
    | consume now ok st' hr ih => exact inv_consumerStep fi si now ok st' ih
    | produce r st' hr ih => exact ih
  · intro st' p now hp
    have h1 : (stopRecording st').log = st'.log ++ [Ev.closed p.seg] := by
      unfold stopRecording
      rw [hp]
    have h2 : (rotate now true st').log
        = (stopRecording st').log ++ [Ev.launch (stopRecording st').next_seg] := rfl
    rw [h2, h1, stopRecording_next_seg, List.append_assoc]
    rfl

/-- Witness for C6 at the freshly started recorder. -/
theorem single_open_segment_witness :
    scanLog (initState [] 0 true).log 0 = some (procCount (initState [] 0 true)) :=
  (single_open_segment (1/30) 300 (initState [] 0 true) (Reach.init [] 0 true)).1

/-- C7 counterexample: `__init__` meets a directory-creation failure and
still completes normally — the `OSError` is caught and reduced to a
printed message, so the owning process gets no exception and no failure
value.  This contradicts the claim that the failure is surfaced to the
owning process rather than swallowed. -/
theorem storage_error_counterexample :
    recorderInitStorage false (Except.error "mkdir failed")
      = { constructed := true, loggedError := some "mkdir failed" } := rfl

/-- C7 amended: in `__init__` a storage-directory creation failure is
caught and only logged, and construction completes normally (swallowed up
to the printed message); by contrast a per-camera directory creation
failure inside `_get_output_filepath` propagates uncaught to its caller
(the consumer thread). -/
theorem storage_error_amended (e : String) (p : String) :
    (recorderInitStorage false (Except.error e)).constructed = true ∧
    (recorderInitStorage false (Except.error e)).loggedError = some e ∧
    getOutputFilepath false (Except.error e) p = Except.error e ∧
    (∀ m, recorderInitStorage true m = { constructed := true, loggedError := none }) :=
  ⟨rfl, rfl, rfl, fun _ => rfl⟩

/-- C9: `read()` is a total function of the camera state (it never waits
for a frame); it returns `none` exactly when no frame has been captured
yet, and otherwise returns a reference to a freshly allocated buffer —
distinct from the slot's buffer but with equal contents — leaving the slot
untouched, so that any mutation of the returned buffer leaves the slot's
contents (and hence all subsequent reads) unchanged. -/
theorem read_copy_semantics (s : CamState) :
    (s.slot = none → (cameraRead s).1 = none ∧ (cameraRead s).2 = s) ∧
    ∀ (l : Nat) (g : Frame → Frame), s.slot = some l → l < s.bufs.length →
      (cameraRead s).1 = some s.bufs.length ∧
      s.bufs.length ≠ l ∧
      deref (cameraRead s).2 s.bufs.length = deref s l ∧
      (cameraRead s).2.slot = s.slot ∧
      deref (writeBuf (cameraRead s).2 s.bufs.length g) l = deref s l ∧
      (writeBuf (cameraRead s).2 s.bufs.length g).slot = s.slot := by
  constructor
  · intro h
    unfold cameraRead
    rw [h]
    exact ⟨rfl, rfl⟩
  · intro l g hl hlt
    unfold cameraRead
    rw [hl]
    refine ⟨rfl, by omega, ?_, rfl, ?_, rfl⟩
    · unfold deref
      rw [List.getD_eq_getElem?_getD, List.getElem?_concat_length]
      rfl
    · unfold writeBuf deref
      rw [List.getD_eq_getElem?_getD, List.getElem?_set_ne (by omega)]
      show (s.bufs ++ [s.bufs.getD l []])[l]?.getD [] = s.bufs.getD l []
      rw [List.getElem?_append, if_pos hlt, ← List.getD_eq_getElem?_getD]

/-- Witness for C9 on a camera holding one captured frame. -/
theorem read_copy_semantics_witness :
    (cameraRead camSt).1 = some camSt.bufs.length ∧
    camSt.bufs.length ≠ 0 ∧
    deref (cameraRead camSt).2 camSt.bufs.length = deref camSt 0 ∧
    (cameraRead camSt).2.slot = camSt.slot ∧
    deref (writeBuf (cameraRead camSt).2 camSt.bufs.length (fun _ => [9])) 0 = deref camSt 0 ∧
    (writeBuf (cameraRead camSt).2 camSt.bufs.length (fun _ => [9])).slot = camSt.slot :=
  (read_copy_semantics camSt).2 0 (fun _ => [9]) rfl (by decide)

/-- C10 counterexample: a camera reporting `fps = 1/2` (a positive value
below 1).  Python truncation gives `int(0.5) = 0`, and the code's check
`if fps <= 0: fps = 30` runs AFTER the truncation, so the encoder is
launched at 30 fps — not at the truncated reported value 0 the claim
prescribes for every positive fps. -/
theorem fps_fallback_counterexample :
    (0 : ℚ) < 1/2 ∧ pyInt (1/2) = 0 ∧ encoderFps (1/2) = 30 ∧
    encoderFps (1/2) ≠ pyInt (1/2) := by
  have hpy : pyInt ((1:ℚ)/2) = 0 := by
    have h := pyInt_nonpos ((1:ℚ)/2) (by norm_num)
    have h2 : (0:ℤ) ≤ pyInt ((1:ℚ)/2) := by
      rw [pyInt_floor_of_nonneg _ (by norm_num)]
      exact Int.floor_nonneg.mpr (by norm_num)
    omega
  have henc : encoderFps (1/2) = 30 := by
    unfold encoderFps
    rw [hpy]
    norm_num
  exact ⟨by norm_num, hpy, henc, by rw [henc, hpy]; norm_num⟩

/-- C10 amended: the encoder-side fallback to 30 fps applies exactly when
the TRUNCATED fps is non-positive — i.e. for every reported fps below 1,
not only for fps ≤ 0; for fps ≥ 1 the truncated reported value is used.
The driver's pacing fallback is as claimed: `frame_interval = 1/fps` for
every positive fps and `1/30` otherwise. -/
theorem fps_fallback_amended (q : ℚ) :
    (q < 1 → encoderFps q = 30) ∧
    (1 ≤ q → encoderFps q = pyInt q ∧ 1 ≤ pyInt q) ∧
    (0 < q → frame_interval q = 1 / q) ∧
    (q ≤ 0 → frame_interval q = 1 / 30 ∧ encoderFps q = 30) := by
  refine ⟨?_, ?_, ?_, ?_⟩
  · intro h
    unfold encoderFps
    rw [if_pos (pyInt_nonpos q h)]
  · intro h
    have hfl : 1 ≤ ⌊q⌋ := Int.le_floor.mpr (by exact_mod_cast h)
    have hpy : pyInt q = ⌊q⌋ := pyInt_floor_of_nonneg q (by linarith)
    have hne : ¬ pyInt q ≤ 0 := by
      rw [hpy]
      omega
    exact ⟨by unfold encoderFps; rw [if_neg hne], by rw [hpy]; exact hfl⟩
  · intro h
    unfold frame_interval
    rw [if_pos h]
  · intro h
    refine ⟨?_, ?_⟩
    · unfold frame_interval
      rw [if_neg (by linarith)]
    · unfold encoderFps
      rw [if_pos (pyInt_nonpos q (by linarith))]

/-- Witness for the amended C10 theorem at fps 1/2 and fps 2. -/
theorem fps_fallback_amended_witness :
    encoderFps (1/2) = 30 ∧ frame_interval 2 = 1 / 2 :=
  ⟨(fps_fallback_amended (1/2)).1 (by norm_num), (fps_fallback_amended 2).2.2.1 (by norm_num)⟩

end Recorder
